import Mathlib

/-!
Verification of the kenchi PCA outlier detector
(`kenchi/outlier_detection/reconstruction_based.py`) and the shared
detector contract described by the repository's specification.

Modelling conventions:
* Machine floats become real numbers (`ℝ`).
* The SVD-based parameter estimation performed by the external
  `sklearn.decomposition.PCA` primitive is treated as a black box:
  the fitted principal components `W` (shape `r × d`) and per-feature
  mean `μ` enter the embedding as parameters of `fit`.
* `sklearn` transforms: `transform X = (X - μ) Wᵀ`,
  `inverse_transform T = T W + μ`, exactly as the library computes them
  for a non-whitened PCA.
* `np.percentile` is embedded with its default linear-interpolation rule.
-/

namespace Kenchi

/-- Binary labels produced by `predict`. -/
inductive Label where
  | inlier  : Label
  | outlier : Label
deriving DecidableEq, Repr

/-- Errors surfaced by the detector API: the sklearn `NotFittedError`
raised by `check_is_fitted`, and the `ValueError` raised on a malformed
input matrix. -/
inductive Err where
  | notFitted : Err
  | malformed : Err
deriving DecidableEq, Repr

namespace PCA

/-- Broadcast of the per-feature mean vector `μ` to an `n × d` matrix,
modelling numpy's row-wise broadcasting of `mean_`. -/
def rowBroadcast (n : ℕ) {d : ℕ} (μ : Fin d → ℝ) : Matrix (Fin n) (Fin d) ℝ :=
  Matrix.of fun _ i => μ i

/-- Embeds `sklearn.decomposition.PCA.transform`: center by `mean_` and project
onto the components, `(X - μ) · Wᵀ`. -/
def transform {n d r : ℕ} (W : Matrix (Fin r) (Fin d) ℝ) (μ : Fin d → ℝ)
    (X : Matrix (Fin n) (Fin d) ℝ) : Matrix (Fin n) (Fin r) ℝ :=
  (X - rowBroadcast n μ) * W.transpose

/-- Embeds `sklearn.decomposition.PCA.inverse_transform`: back-project and
un-center, `T · W + μ`. -/
def inverse_transform {n d r : ℕ} (W : Matrix (Fin r) (Fin d) ℝ) (μ : Fin d → ℝ)
    (T : Matrix (Fin n) (Fin r) ℝ) : Matrix (Fin n) (Fin d) ℝ :=
  T * W + rowBroadcast n μ

/-- Embeds `PCA.reconstruct`: `self._pca.inverse_transform(self._pca.transform(X))`. -/
def reconstruct {n d r : ℕ} (W : Matrix (Fin r) (Fin d) ℝ) (μ : Fin d → ℝ)
    (X : Matrix (Fin n) (Fin d) ℝ) : Matrix (Fin n) (Fin d) ℝ :=
  inverse_transform W μ (transform W μ X)

/-- Embeds `PCA.feature_wise_anomaly_score` on well-shaped data:
`(X - self.reconstruct(X)) ** 2`, elementwise. -/
def feature_wise_anomaly_score {n d r : ℕ} (W : Matrix (Fin r) (Fin d) ℝ)
    (μ : Fin d → ℝ) (X : Matrix (Fin n) (Fin d) ℝ) : Matrix (Fin n) (Fin d) ℝ :=
  Matrix.of fun k i => (X k i - reconstruct W μ X k i) ^ 2

/-- Embeds `PCA.anomaly_score` on well-shaped data:
`np.sqrt(np.sum(self.feature_wise_anomaly_score(X), axis=1))`. -/
noncomputable def anomaly_score {n d r : ℕ} (W : Matrix (Fin r) (Fin d) ℝ)
    (μ : Fin d → ℝ) (X : Matrix (Fin n) (Fin d) ℝ) : Fin n → ℝ :=
  fun k => Real.sqrt (∑ i, feature_wise_anomaly_score W μ X k i)

/-- The ascending sort `np.percentile` performs on its input. -/
noncomputable def psorted (l : List ℝ) : List ℝ := List.insertionSort (· ≤ ·) l

/-- The virtual (fractional) index `q · (len - 1) / 100` at which
`np.percentile` reads the sorted data. -/
noncomputable def pvirt (l : List ℝ) (q : ℚ) : ℚ :=
  q * (((psorted l).length - 1 : ℕ) : ℚ) / 100

/-- The integer part of the virtual index. -/
noncomputable def pidx (l : List ℝ) (q : ℚ) : ℕ := ⌊pvirt l q⌋₊

/-- The fractional part of the virtual index, numpy's interpolation
weight. -/
noncomputable def pfrac (l : List ℝ) (q : ℚ) : ℚ :=
  pvirt l q - (pidx l q : ℚ)

/-- Embeds `np.percentile(l, q)` with numpy's default linear interpolation:
sort ascending, take the virtual index `h = q·(len-1)/100`, and
interpolate linearly between the two neighbouring order statistics. -/
noncomputable def percentile (l : List ℝ) (q : ℚ) : ℝ :=
  (1 - ((pfrac l q : ℚ) : ℝ)) * (psorted l).getD (pidx l q) 0
    + ((pfrac l q : ℚ) : ℝ) * (psorted l).getD (pidx l q + 1) 0

/-- The state written by a successful `PCA.fit`: the externally fitted
components and mean, the cached training matrix `X_`, and the calibrated
`threshold_`. -/
structure Fitted (n d r : ℕ) where
  W : Matrix (Fin r) (Fin d) ℝ
  μ : Fin d → ℝ
  X_ : Matrix (Fin n) (Fin d) ℝ
  threshold_ : ℝ

/-- Embeds `PCA.fit`: the external primitive `self._pca.fit(X)` yields `W` and
`μ`; the method then stores `X_ = X`, computes `anomaly_score()` on the
cached training data, and sets
`threshold_ = np.percentile(scores, 100 * (1 - fpr))`. -/
noncomputable def fit {n d r : ℕ} (fpr : ℚ) (W : Matrix (Fin r) (Fin d) ℝ)
    (μ : Fin d → ℝ) (X : Matrix (Fin n) (Fin d) ℝ) : Fitted n d r :=
  let scores := List.ofFn (anomaly_score W μ X)
  { W := W, μ := μ, X_ := X
    threshold_ := percentile scores (100 * (1 - fpr)) }

/-- Modelled from the spec: `BaseDetector.predict` lives in
`kenchi/base.py`, which is not among the available sources. Per the
spec, the label is "outlier" if `anomaly_score(x) > threshold_`, else
"inlier", per sample. -/
noncomputable def predict {n d r m : ℕ} (f : Fitted n d r)
    (X : Matrix (Fin m) (Fin d) ℝ) : Fin m → Label :=
  fun k => if f.threshold_ < anomaly_score f.W f.μ X k then .outlier else .inlier

/-- Modelled from the spec: `BaseDetector.fit_predict` lives in
`kenchi/base.py`, which is not among the available sources. Per the
spec it is `fit(X)` followed by `predict(X)`, where the implementer may
reuse the anomaly scores already computed during `fit`; we model that
optimized variant, comparing the fit-time training scores against the
freshly calibrated threshold. -/
noncomputable def fit_predict {n d r : ℕ} (fpr : ℚ) (W : Matrix (Fin r) (Fin d) ℝ)
    (μ : Fin d → ℝ) (X : Matrix (Fin n) (Fin d) ℝ) : Fin n → Label :=
  let f := fit fpr W μ X
  let scores := anomaly_score W μ X
  fun k => if f.threshold_ < scores k then .outlier else .inlier

end PCA

/-- Conversion of a row-major list-of-lists matrix (the caller's
array-like input) into the `n × d` matrix the fitted model operates on;
only applied after the shape check has passed. -/
def toMatD (d : ℕ) (rows : List (List ℝ)) : Matrix (Fin rows.length) (Fin d) ℝ :=
  Matrix.of fun k i => (rows.get k).getD i 0

/-- Number of features of a row-major input matrix: the length of its
first row. -/
def width (rows : List (List ℝ)) : ℕ := (rows.headD []).length

/-- A fitted PCA state with its dimensions packaged up: `n` training
samples, `d` features, `r` components. -/
structure FittedPacked where
  n : ℕ
  d : ℕ
  r : ℕ
  core : PCA.Fitted n d r

/-- A `PCA` detector instance: the `fpr` hyperparameter fixed at
construction, and the fitted attributes (`X_`, `threshold_`, the sklearn
model), absent until `fit` succeeds. -/
structure Detector where
  fpr : ℚ
  fitted : Option FittedPacked

namespace Detector

/-- Embeds `PCA.feature_wise_anomaly_score` at the API boundary:
`check_is_fitted(self, 'X_')` raises `NotFittedError` when unfitted;
`X = None` selects the cached training data `X_`; an explicit matrix is
shape-checked against the fitted feature count before any score is
computed (performed by `check_array` inside the sklearn `transform`
call, which raises `ValueError` on a feature-count mismatch). -/
noncomputable def feature_wise_anomaly_score (det : Detector)
    (X : Option (List (List ℝ))) : Except Err (List (List ℝ)) :=
  match det.fitted with
  | none => .error .notFitted
  | some f =>
    match X with
    | none =>
        .ok (List.ofFn fun k => List.ofFn fun i =>
          PCA.feature_wise_anomaly_score f.core.W f.core.μ f.core.X_ k i)
    | some rows =>
        if rows.all fun row => row.length == f.d then
          .ok (List.ofFn fun k => List.ofFn fun i =>
            PCA.feature_wise_anomaly_score f.core.W f.core.μ (toMatD f.d rows) k i)
        else .error .malformed

/-- Embeds `PCA.anomaly_score` at the API boundary:
`np.sqrt(np.sum(self.feature_wise_anomaly_score(X), axis=1))`, with the
not-fitted and shape checks inherited from
`feature_wise_anomaly_score`. -/
noncomputable def anomaly_score (det : Detector)
    (X : Option (List (List ℝ))) : Except Err (List ℝ) :=
  match det.fitted with
  | none => .error .notFitted
  | some f =>
    match X with
    | none => .ok (List.ofFn (PCA.anomaly_score f.core.W f.core.μ f.core.X_))
    | some rows =>
        if rows.all fun row => row.length == f.d then
          .ok (List.ofFn (PCA.anomaly_score f.core.W f.core.μ (toMatD f.d rows)))
        else .error .malformed

/-- Embeds `PCA.reconstruct` at the API boundary: the sklearn `transform`
call raises `NotFittedError` when the model is unfitted and
`ValueError` on a feature-count mismatch, before computing anything. -/
noncomputable def reconstruct (det : Detector) (rows : List (List ℝ)) :
    Except Err (List (List ℝ)) :=
  match det.fitted with
  | none => .error .notFitted
  | some f =>
    if rows.all fun row => row.length == f.d then
      .ok (List.ofFn fun k => List.ofFn fun i =>
        PCA.reconstruct f.core.W f.core.μ (toMatD f.d rows) k i)
    else .error .malformed

/-- Modelled from the spec: `BaseDetector.predict` lives in
`kenchi/base.py`, not among the available sources. It fails with the
not-fitted error before `fit`, scores the given matrix through
`anomaly_score` (inheriting its shape check), and labels each sample
against `threshold_`. -/
noncomputable def predict (det : Detector) (rows : List (List ℝ)) :
    Except Err (List Label) :=
  match det.fitted with
  | none => .error .notFitted
  | some f =>
    if rows.all fun row => row.length == f.d then
      .ok (List.ofFn (PCA.predict f.core (toMatD f.d rows)))
    else .error .malformed

/-- Embeds `PCA.score` at the API boundary: the body is a single call into the
external primitive `self._pca.score(X)` (mean log-likelihood under the
probabilistic-PCA model), here the black-box parameter `sc`; sklearn
raises `NotFittedError` when the model is unfitted. -/
def score (sc : List (List ℝ) → ℝ) (det : Detector) (rows : List (List ℝ)) :
    Except Err ℝ :=
  match det.fitted with
  | none => .error .notFitted
  | some _ => .ok (sc rows)

/-- Stateful view of `anomaly_score`: the method body contains no
attribute assignment, so the detector state passes through unchanged. -/
noncomputable def anomaly_score_st (det : Detector)
    (X : Option (List (List ℝ))) : Detector × Except Err (List ℝ) :=
  (det, anomaly_score det X)

/-- Stateful view of `feature_wise_anomaly_score` (no attribute
assignment in the method body). -/
noncomputable def feature_wise_anomaly_score_st (det : Detector)
    (X : Option (List (List ℝ))) : Detector × Except Err (List (List ℝ)) :=
  (det, feature_wise_anomaly_score det X)

/-- Stateful view of `reconstruct` (no attribute assignment). -/
noncomputable def reconstruct_st (det : Detector) (rows : List (List ℝ)) :
    Detector × Except Err (List (List ℝ)) :=
  (det, reconstruct det rows)

/-- Stateful view of `predict` (no attribute assignment). -/
noncomputable def predict_st (det : Detector) (rows : List (List ℝ)) :
    Detector × Except Err (List Label) :=
  (det, predict det rows)

/-- Stateful view of `score` (no attribute assignment). -/
def score_st (sc : List (List ℝ) → ℝ) (det : Detector) (rows : List (List ℝ)) :
    Detector × Except Err ℝ :=
  (det, score sc det rows)

end Detector

/-- A caller-side input container: a plain numeric array, or a labeled
data frame carrying an index. -/
inductive Table where
  | plain (rows : List (List ℝ)) : Table
  | frame (idx : List ℤ) (rows : List (List ℝ)) : Table

/-- The numeric rows of an input container. -/
def Table.rows : Table → List (List ℝ)
  | .plain rs => rs
  | .frame _ rs => rs

/-- A label container returned by `fit_predict`: a plain array of
labels, or a labeled series carrying the caller's index. -/
inductive Labels where
  | plain (ls : List Label) : Labels
  | series (idx : List ℤ) (ls : List Label) : Labels

/-- Number of labels in a label container. -/
def Labels.count : Labels → ℕ
  | .plain ls => ls.length
  | .series _ ls => ls.length

/-- The output container mirrors the input container: plain array in,
plain array out; labeled frame in, labeled series (with the frame's
index) out. -/
def containerMatches : Table → Labels → Prop
  | .plain _, .plain _ => True
  | .frame idx _, .series idx' _ => idx' = idx
  | _, _ => False

/-- Modelled from the spec: the container handling of
`BaseDetector.fit_predict` (in `kenchi/base.py`, not among the available
sources) — fit on the container's rows, predict each row, and wrap the
labels in the container kind of the input. -/
noncomputable def fit_predict_table (fpr : ℚ) (t : Table) (r : ℕ)
    (W : Matrix (Fin r) (Fin (width t.rows)) ℝ)
    (μ : Fin (width t.rows) → ℝ) : Labels :=
  let ls := List.ofFn (PCA.fit_predict fpr W μ (toMatD (width t.rows) t.rows))
  match t with
  | .plain _ => .plain ls
  | .frame idx _ => .series idx ls

/-! ### Helper lemmas about sorted lists and `percentile` -/

/-- In a list sorted ascending, every element is at most the last one. -/
theorem le_getD_last_of_sorted :
    ∀ {l : List ℝ}, l.Sorted (· ≤ ·) → ∀ x ∈ l, x ≤ l.getD (l.length - 1) 0 := by
  intro l
  induction l with
  | nil => intro _ x hx; simp at hx
  | cons a t ih =>
    intro hs x hx
    rcases List.sorted_cons.mp hs with ⟨ha, ht⟩
    cases t with
    | nil =>
      simp only [List.mem_singleton] at hx
      subst hx
      simp [List.getD]
    | cons b t' =>
      have hgt : (a :: b :: t').getD ((a :: b :: t').length - 1) 0
          = (b :: t').getD ((b :: t').length - 1) 0 := by
        simp [List.getD_cons_succ]
      rw [hgt]
      rcases List.mem_cons.mp hx with hxa | hxt
      · subst hxa
        have hidx : (b :: t').length - 1 < (b :: t').length := by simp
        rw [List.getD_eq_getElem _ 0 hidx]
        exact ha _ (List.getElem_mem hidx)
      · exact ih ht x hxt

/-- At `q = 100` the virtual index is integral, so the interpolation
weight vanishes. -/
theorem pfrac_100 (l : List ℝ) : PCA.pfrac l 100 = 0 := by
  have hv : PCA.pvirt l 100 = (((PCA.psorted l).length - 1 : ℕ) : ℚ) := by
    unfold PCA.pvirt
    ring
  unfold PCA.pfrac PCA.pidx
  rw [hv, Nat.floor_natCast, sub_self]

/-- At `q = 100` the percentile is the last (largest) element of the
sorted data. -/
theorem percentile_100_eq (l : List ℝ) :
    PCA.percentile l 100 = (PCA.psorted l).getD ((PCA.psorted l).length - 1) 0 := by
  have hv : PCA.pvirt l 100 = (((PCA.psorted l).length - 1 : ℕ) : ℚ) := by
    unfold PCA.pvirt
    ring
  have hidx : PCA.pidx l 100 = (PCA.psorted l).length - 1 := by
    unfold PCA.pidx
    rw [hv, Nat.floor_natCast]
  unfold PCA.percentile
  rw [pfrac_100, hidx]
  push_cast
  ring

/-- Every element of a list is at most its 100th percentile. -/
theorem le_percentile_100 {l : List ℝ} {x : ℝ} (hx : x ∈ l) :
    x ≤ PCA.percentile l 100 := by
  have hmem : x ∈ PCA.psorted l := (List.mem_insertionSort _).mpr hx
  have hsort : (PCA.psorted l).Sorted (· ≤ ·) := List.sorted_insertionSort _ l
  rw [percentile_100_eq]
  exact le_getD_last_of_sorted hsort x hmem

/-! ### Concrete sample objects used by witnesses -/

/-- A concrete 1-sample, 1-feature training matrix. -/
def sampleX : Matrix (Fin 1) (Fin 1) ℝ := Matrix.of fun _ _ => (3 : ℝ)

/-- A concrete fitted core state obtained by fitting on `sampleX` with
the identity component matrix and zero mean. -/
noncomputable def sampleCore : PCA.Fitted 1 1 1 :=
  PCA.fit (1 / 100) (1 : Matrix (Fin 1) (Fin 1) ℝ) 0 sampleX

/-- The state `sampleCore` with its dimensions packaged. -/
noncomputable def samplePacked : FittedPacked := ⟨1, 1, 1, sampleCore⟩

/-- A concrete fitted detector. -/
noncomputable def sampleDet : Detector := { fpr := 1 / 100, fitted := some samplePacked }

/-- A freshly constructed, never-fitted detector. -/
def freshDet : Detector := { fpr := 1 / 100, fitted := none }

/-! ### Claim theorems -/

/-- C1: after `fit(X)` returns, `threshold_` equals the
`(1 - false_positive_rate) * 100`-th percentile of the anomaly scores
that `fit` computed on the training data `X` itself (which `fit` caches
as `X_`). -/
theorem fit_threshold_is_percentile {n d r : ℕ} (fpr : ℚ)
    (W : Matrix (Fin r) (Fin d) ℝ) (μ : Fin d → ℝ)
    (X : Matrix (Fin n) (Fin d) ℝ) :
    (PCA.fit fpr W μ X).threshold_ =
      PCA.percentile (List.ofFn (PCA.anomaly_score W μ X)) (100 * (1 - fpr))
    ∧ (PCA.fit fpr W μ X).X_ = X :=
  ⟨rfl, rfl⟩

/-- C2: for a fitted PCA detector, `feature_wise_anomaly_score` is the
matrix of per-feature squared residuals `(x - reconstruct(x))^2`,
`anomaly_score` is the square root of their per-sample sum, and with
`X = None` both score the cached training matrix `X_`. -/
theorem scores_are_squared_residuals (det : Detector) (f : FittedPacked)
    (hf : det.fitted = some f) {m : ℕ} (X : Matrix (Fin m) (Fin f.d) ℝ) :
    (∀ k i, PCA.feature_wise_anomaly_score f.core.W f.core.μ X k i
        = (X k i - PCA.reconstruct f.core.W f.core.μ X k i) ^ 2)
    ∧ (∀ k, PCA.anomaly_score f.core.W f.core.μ X k
        = Real.sqrt (∑ i, PCA.feature_wise_anomaly_score f.core.W f.core.μ X k i))
    ∧ Detector.anomaly_score det none
        = .ok (List.ofFn (PCA.anomaly_score f.core.W f.core.μ f.core.X_))
    ∧ Detector.feature_wise_anomaly_score det none
        = .ok (List.ofFn fun k => List.ofFn fun i =>
            PCA.feature_wise_anomaly_score f.core.W f.core.μ f.core.X_ k i) := by
  refine ⟨fun k i => rfl, fun k => rfl, ?_, ?_⟩
  · simp [Detector.anomaly_score, hf]
  · simp [Detector.feature_wise_anomaly_score, hf]

/-- Witness for C2 at a concrete fitted detector and input. -/
theorem scores_are_squared_residuals_witness :
    sampleDet.fitted = some samplePacked
    ∧ ((∀ k i, PCA.feature_wise_anomaly_score samplePacked.core.W samplePacked.core.μ sampleX k i
          = (sampleX k i - PCA.reconstruct samplePacked.core.W samplePacked.core.μ sampleX k i) ^ 2)
      ∧ (∀ k, PCA.anomaly_score samplePacked.core.W samplePacked.core.μ sampleX k
          = Real.sqrt (∑ i, PCA.feature_wise_anomaly_score samplePacked.core.W samplePacked.core.μ sampleX k i))
      ∧ Detector.anomaly_score sampleDet none
          = .ok (List.ofFn (PCA.anomaly_score samplePacked.core.W samplePacked.core.μ samplePacked.core.X_))
      ∧ Detector.feature_wise_anomaly_score sampleDet none
          = .ok (List.ofFn fun k => List.ofFn fun i =>
              PCA.feature_wise_anomaly_score samplePacked.core.W samplePacked.core.μ samplePacked.core.X_ k i)) :=
  ⟨rfl, scores_are_squared_residuals sampleDet samplePacked rfl sampleX⟩

/-- C3: before any successful `fit`, `anomaly_score`, `predict` and
`score` all fail with the not-fitted error rather than returning a
value. -/
theorem notfitted_errors (det : Detector) (h : det.fitted = none)
    (X : Option (List (List ℝ))) (rows : List (List ℝ))
    (sc : List (List ℝ) → ℝ) :
    Detector.anomaly_score det X = .error .notFitted
    ∧ Detector.predict det rows = .error .notFitted
    ∧ Detector.score sc det rows = .error .notFitted := by
  refine ⟨?_, ?_, ?_⟩ <;>
    simp [Detector.anomaly_score, Detector.predict, Detector.score, h]

/-- Witness for C3 at a concrete unfitted detector and input. -/
theorem notfitted_errors_witness :
    freshDet.fitted = none
    ∧ (Detector.anomaly_score freshDet (some [[1]]) = .error .notFitted
      ∧ Detector.predict freshDet [[1]] = .error .notFitted
      ∧ Detector.score (fun _ => 0) freshDet [[1]] = .error .notFitted) :=
  ⟨rfl, notfitted_errors freshDet rfl (some [[1]]) [[1]] (fun _ => 0)⟩

/-- C4: with `false_positive_rate = 0`, the calibrated threshold is at
or above every training anomaly score, and since the outlier label
requires a score strictly above `threshold_`, `predict` classifies
every training sample as inlier. -/
theorem fpr_zero_all_inliers {n d r : ℕ} (fpr : ℚ)
    (W : Matrix (Fin r) (Fin d) ℝ) (μ : Fin d → ℝ)
    (X : Matrix (Fin n) (Fin d) ℝ) (hfpr : fpr = 0) :
    (∀ k, PCA.anomaly_score W μ X k ≤ (PCA.fit fpr W μ X).threshold_)
    ∧ ∀ k, PCA.predict (PCA.fit fpr W μ X) X k = Label.inlier := by
  subst hfpr
  have hth : (PCA.fit 0 W μ X).threshold_
      = PCA.percentile (List.ofFn (PCA.anomaly_score W μ X)) 100 := by
    show PCA.percentile _ (100 * (1 - 0)) = _
    norm_num
  have hle : ∀ k, PCA.anomaly_score W μ X k ≤ (PCA.fit 0 W μ X).threshold_ := by
    intro k
    rw [hth]
    exact le_percentile_100 ((List.mem_ofFn _ _).mpr ⟨k, rfl⟩)
  refine ⟨hle, fun k => ?_⟩
  have hproj : PCA.anomaly_score (PCA.fit 0 W μ X).W (PCA.fit 0 W μ X).μ X k
      = PCA.anomaly_score W μ X k := rfl
  unfold PCA.predict
  rw [hproj, if_neg (not_lt.mpr (hle k))]

/-- Witness for C4 at a concrete fit with `fpr = 0`. -/
theorem fpr_zero_all_inliers_witness :
    (0 : ℚ) = 0
    ∧ ((∀ k, PCA.anomaly_score (1 : Matrix (Fin 1) (Fin 1) ℝ) 0 sampleX k
          ≤ (PCA.fit 0 (1 : Matrix (Fin 1) (Fin 1) ℝ) 0 sampleX).threshold_)
      ∧ ∀ k, PCA.predict (PCA.fit 0 (1 : Matrix (Fin 1) (Fin 1) ℝ) 0 sampleX) sampleX k
          = Label.inlier) :=
  ⟨rfl, fpr_zero_all_inliers 0 1 0 sampleX rfl⟩

/-- C5: `fit_predict(X)` returns the same label sequence as `fit(X)`
followed by `predict(X)` on that same `X`. -/
theorem fit_predict_eq_fit_then_predict {n d r : ℕ} (fpr : ℚ)
    (W : Matrix (Fin r) (Fin d) ℝ) (μ : Fin d → ℝ)
    (X : Matrix (Fin n) (Fin d) ℝ) :
    PCA.fit_predict fpr W μ X = PCA.predict (PCA.fit fpr W μ X) X := rfl

/-- C6: with as many components as features (so the components form an
orthonormal basis, `W·Wᵀ = 1` with `W` square, as the SVD guarantees),
the reconstruction round-trip reproduces the inputs exactly and the
reconstruction-error anomaly score is zero on every sample. -/
theorem full_rank_zero_reconstruction_error {n d : ℕ}
    (W : Matrix (Fin d) (Fin d) ℝ) (μ : Fin d → ℝ)
    (X : Matrix (Fin n) (Fin d) ℝ) (hW : W * W.transpose = 1) :
    PCA.reconstruct W μ X = X ∧ ∀ k, PCA.anomaly_score W μ X k = 0 := by
  have hWtW : W.transpose * W = 1 := Matrix.mul_eq_one_comm.mp hW
  have hrec : PCA.reconstruct W μ X = X := by
    unfold PCA.reconstruct PCA.inverse_transform PCA.transform
    rw [Matrix.mul_assoc, hWtW, Matrix.mul_one, sub_add_cancel]
  refine ⟨hrec, fun k => ?_⟩
  simp [PCA.anomaly_score, PCA.feature_wise_anomaly_score, hrec, Real.sqrt_zero]

/-- Witness for C6 at the identity component matrix. -/
theorem full_rank_zero_reconstruction_error_witness :
    ((1 : Matrix (Fin 1) (Fin 1) ℝ) * (1 : Matrix (Fin 1) (Fin 1) ℝ).transpose = 1)
    ∧ (PCA.reconstruct (1 : Matrix (Fin 1) (Fin 1) ℝ) 0 sampleX = sampleX
      ∧ ∀ k, PCA.anomaly_score (1 : Matrix (Fin 1) (Fin 1) ℝ) 0 sampleX k = 0) :=
  ⟨by simp, full_rank_zero_reconstruction_error 1 0 sampleX (by simp)⟩

/-- C7: on a fitted detector, every scoring entry point rejects an
input matrix whose feature count differs from the fitted model with the
malformed-input error, before any score is computed. -/
theorem malformed_input_errors (det : Detector) (f : FittedPacked)
    (hf : det.fitted = some f) (rows : List (List ℝ))
    (hshape : ∃ row ∈ rows, row.length ≠ f.d) :
    Detector.anomaly_score det (some rows) = .error .malformed
    ∧ Detector.feature_wise_anomaly_score det (some rows) = .error .malformed
    ∧ Detector.reconstruct det rows = .error .malformed
    ∧ Detector.predict det rows = .error .malformed := by
  have hall : (rows.all fun row => row.length == f.d) = false := by
    simp only [List.all_eq_false]
    obtain ⟨row, hrow, hne⟩ := hshape
    exact ⟨row, hrow, by simpa using hne⟩
  refine ⟨?_, ?_, ?_, ?_⟩ <;>
    simp [Detector.anomaly_score, Detector.feature_wise_anomaly_score,
      Detector.reconstruct, Detector.predict, hf, hall]

/-- Witness for C7: a two-feature row fed to a one-feature model. -/
theorem malformed_input_errors_witness :
    sampleDet.fitted = some samplePacked
    ∧ (∃ row ∈ [[(1 : ℝ), 2]], row.length ≠ samplePacked.d)
    ∧ (Detector.anomaly_score sampleDet (some [[(1 : ℝ), 2]]) = .error .malformed
      ∧ Detector.feature_wise_anomaly_score sampleDet (some [[(1 : ℝ), 2]]) = .error .malformed
      ∧ Detector.reconstruct sampleDet [[(1 : ℝ), 2]] = .error .malformed
      ∧ Detector.predict sampleDet [[(1 : ℝ), 2]] = .error .malformed) :=
  ⟨rfl, ⟨[1, 2], by simp, by decide⟩,
    malformed_input_errors sampleDet samplePacked rfl [[(1 : ℝ), 2]]
      ⟨[1, 2], by simp, by decide⟩⟩

/-- C8: `anomaly_score`, `feature_wise_anomaly_score`, `reconstruct`,
`predict` and `score` leave the detector state (the `fpr`
hyperparameter and all fitted attributes) unchanged. -/
theorem read_operations_preserve_state (det : Detector)
    (X : Option (List (List ℝ))) (rows : List (List ℝ))
    (sc : List (List ℝ) → ℝ) :
    (Detector.anomaly_score_st det X).1 = det
    ∧ (Detector.feature_wise_anomaly_score_st det X).1 = det
    ∧ (Detector.reconstruct_st det rows).1 = det
    ∧ (Detector.predict_st det rows).1 = det
    ∧ (Detector.score_st sc det rows).1 = det :=
  ⟨rfl, rfl, rfl, rfl, rfl⟩

/-- C9: `fit_predict` returns one label per input row, and the output
container mirrors the input container: plain array in, plain array out;
labeled frame in, labeled series (carrying the frame's index) out. -/
theorem fit_predict_label_per_row_and_container (fpr : ℚ) (t : Table) (r : ℕ)
    (W : Matrix (Fin r) (Fin (width t.rows)) ℝ)
    (μ : Fin (width t.rows) → ℝ) :
    (fit_predict_table fpr t r W μ).count = t.rows.length
    ∧ containerMatches t (fit_predict_table fpr t r W μ) := by
  cases t <;>
    simp [fit_predict_table, Labels.count, containerMatches, Table.rows]

/-- C10: every feature-wise anomaly score entry is nonnegative (it is a
square), and every aggregate anomaly score is nonnegative (it is a
square root). -/
theorem scores_nonneg {n d r : ℕ} (W : Matrix (Fin r) (Fin d) ℝ)
    (μ : Fin d → ℝ) (X : Matrix (Fin n) (Fin d) ℝ) :
    (∀ k i, 0 ≤ PCA.feature_wise_anomaly_score W μ X k i)
    ∧ ∀ k, 0 ≤ PCA.anomaly_score W μ X k := by
  constructor
  · intro k i
    simp only [PCA.feature_wise_anomaly_score, Matrix.of_apply]
    exact sq_nonneg _
  · intro k
    exact Real.sqrt_nonneg _

end Kenchi
